import Mathlib

/-
Verification development for the armada manifest resolver
(`armada/handlers/manifest.py`) and lock coordinator
(`armada/handlers/lock.py`).

The Python dictionaries that make up a document are embedded as a recursive
`Doc` type: a document carries `schema`, `metadata.name` and an optional
`data` section; the `data` section carries the three entry lists
(`dependencies`, `charts`, `chart_groups`) plus `release_prefix`, each
`Option`-valued to distinguish a missing key from an empty list.  A list
entry is `Sum.inl s` for a name string and `Sum.inr d` for an inlined
document object (`isinstance(x, dict)` in the source distinguishes the two).

The source mutates documents in place; the embedding threads the mutated
stores (`charts`, `groups`, `manifest`) explicitly and writes a rebuilt
document back into the store at the position `find_chart_document` /
`find_chart_group_document` located it, which is where the in-place
mutation of the source lands.  The unbounded recursion of
`_build_chart_deps` is embedded with explicit fuel; `none` models a run
that does not terminate within the given fuel.
-/

namespace Armada

mutual

inductive DocData : Type where
  | mk : Option (List (String ⊕ Doc)) → Option (List (String ⊕ Doc)) →
      Option (List (String ⊕ Doc)) → Option String → DocData

inductive Doc : Type where
  | mk : Option String → Option String → Option DocData → Doc

end

/-- An entry of a `dependencies` / `charts` / `chart_groups` list: a name
string or an inlined document object. -/
abbrev Entry := String ⊕ Doc

/-- The `schema` key of a document (`document.get('schema')`). -/
def Doc.schemaOf : Doc → Option String
  | .mk s _ _ => s

/-- The `metadata.name` of a document (`doc.get('metadata', {}).get('name')`). -/
def Doc.nameOf : Doc → Option String
  | .mk _ n _ => n

/-- The `data` section of a document (`doc.get(const.KEYWORD_DATA)`),
`none` when the key is missing. -/
def Doc.dataOf : Doc → Option DocData
  | .mk _ _ d => d

/-- The `dependencies` list of a data section, `none` when missing. -/
def DocData.deps : DocData → Option (List Entry)
  | .mk d _ _ _ => d

/-- The `charts` list of a data section, `none` when missing. -/
def DocData.chartsOf : DocData → Option (List Entry)
  | .mk _ c _ _ => c

/-- The `chart_groups` list of a data section, `none` when missing. -/
def DocData.chartGroupsOf : DocData → Option (List Entry)
  | .mk _ _ g _ => g

/-- The `release_prefix` value of a data section (`data.get(KEYWORD_PREFIX)`). -/
def DocData.releasePfx : DocData → Option String
  | .mk _ _ _ p => p

/-- The value of `chart.get(KEYWORD_DATA, {}).get('dependencies', [])`. -/
def Doc.depsGetD (d : Doc) : List Entry :=
  match d.dataOf with
  | none => []
  | some dd => dd.deps.getD []

/-- The value of `chart_group.get(KEYWORD_DATA).get(KEYWORD_CHARTS, [])`. -/
def Doc.chartsGetD (d : Doc) : List Entry :=
  match d.dataOf with
  | none => []
  | some dd => dd.chartsOf.getD []

/-- The value of `manifest.get(KEYWORD_DATA, {}).get(KEYWORD_GROUPS, [])`,
kept as an `Option` so that a rebuilt manifest stores the new list exactly
when the key was present. -/
def Doc.chartGroupsGetD (d : Doc) : Option (List Entry) :=
  match d.dataOf with
  | none => none
  | some dd => dd.chartGroupsOf

/-- Replace the `dependencies` list of a chart, modelling the in-place
assignment `chart[KEYWORD_DATA]['dependencies'][iter] = chart_dep` applied
across the loop of `_build_chart_deps`.  When the document had no data
section or no `dependencies` key the loop body never ran, so the document
is returned unchanged. -/
def Doc.setDeps : Doc → List Entry → Doc
  | .mk s n none, _ => .mk s n none
  | .mk s n (some (.mk none c g p)), _ => .mk s n (some (.mk none c g p))
  | .mk s n (some (.mk (some _) c g p)), es => .mk s n (some (.mk (some es) c g p))

/-- Replace the `charts` list of a group, modelling the in-place
assignment in `_build_chart_group`. -/
def Doc.setCharts : Doc → List Entry → Doc
  | .mk s n none, _ => .mk s n none
  | .mk s n (some (.mk d none g p)), _ => .mk s n (some (.mk d none g p))
  | .mk s n (some (.mk d (some _) g p)), es => .mk s n (some (.mk d (some es) g p))

/-- Replace the `chart_groups` list of a manifest, modelling the in-place
assignment in `_build_armada_manifest`. -/
def Doc.setChartGroups : Doc → List Entry → Doc
  | .mk s n none, _ => .mk s n none
  | .mk s n (some (.mk d c none p)), _ => .mk s n (some (.mk d c none p))
  | .mk s n (some (.mk d c (some _) p)), es => .mk s n (some (.mk d c (some es) p))

/-- Modelled from the spec: the schema registry of
`armada.handlers.schema` (not among the sources).  Per the specification
the registry recognises exactly the three schema strings and any other
schema is ignored. -/
inductive SchemaType : Type where
  | chart
  | chartgroup
  | manifest
deriving DecidableEq

/-- Modelled from the spec: `schema.TYPE_CHART`, the schema-kind label used
in error messages. -/
def TYPE_CHART : String := "Chart"

/-- Modelled from the spec: `schema.TYPE_CHARTGROUP`. -/
def TYPE_CHARTGROUP : String := "ChartGroup"

/-- Modelled from the spec: `schema.TYPE_MANIFEST`. -/
def TYPE_MANIFEST : String := "Manifest"

/-- Modelled from the spec: `schema.get_schema_info`, mapping a schema
string to its type; unknown schemas give `none` and are skipped. -/
def get_schema_info : Option String → Option SchemaType
  | some "armada/Chart/v1" => some .chart
  | some "armada/ChartGroup/v1" => some .chartgroup
  | some "armada/Manifest/v1" => some .manifest
  | _ => none

/-- Modelled from the spec: the `armada.exceptions` manifest error classes
(not among the sources).  All four classes are subclasses of
`ManifestException`, so both `except Exception` in `_build_chart_deps` and
`except exceptions.ManifestException` in `_build_chart_group` catch every
one of them; each carries its `details` message. -/
inductive ManifestError : Type where
  | manifestException (details : String)
  | buildChartException (details : String)
  | buildChartGroupException (details : String)
  | chartDependencyException (details : String)
deriving DecidableEq

/-- The `details` message of a manifest error. -/
def ManifestError.details : ManifestError → String
  | .manifestException s => s
  | .buildChartException s => s
  | .buildChartGroupException s => s
  | .chartDependencyException s => s

/-- The state of a `Manifest` object after `__init__`: the classified
chart documents, chart group documents and the selected manifest, mutated
in place by the build methods. -/
structure MState : Type where
  charts : List Doc
  groups : List Doc
  manifest : Doc

/-- Python truthiness of the `target_manifest` argument: `None` and the
empty string are falsy (`if target_manifest:`). -/
def targetTruthy : Option String → Bool
  | none => false
  | some t => !(t == "")

/-- `Manifest._find_documents` (manifest.py lines 73-105): classify the
documents by schema type, filtering manifests by `target_manifest` when it
is truthy; returns `(charts, groups, manifests)` in input order. -/
def find_documents (documents : List Doc) (target : Option String) :
    List Doc × List Doc × List Doc :=
  match documents with
  | [] => ([], [], [])
  | d :: rest =>
    let r := find_documents rest target
    match get_schema_info d.schemaOf with
    | none => r
    | some .chart => (d :: r.1, r.2.1, r.2.2)
    | some .chartgroup => (r.1, d :: r.2.1, r.2.2)
    | some .manifest =>
      if targetTruthy target then
        if d.nameOf == target then (r.1, r.2.1, d :: r.2.2) else r
      else (r.1, r.2.1, d :: r.2.2)

/-- The error message for multiple manifests (manifest.py lines 57-59). -/
def multiManifestMsg : String :=
  "Multiple manifests are not supported. Ensure that the `target_manifest` option is set to specify the target manifest"

/-- The error message for a missing document kind (manifest.py lines
67-69), with the expected-schema list rendered as Python renders it. -/
def missingKindMsg : String :=
  "Documents must include at least one of each of [\x27Chart\x27, \x27ChartGroup\x27] and only one Manifest"

/-- `Manifest.__init__` (manifest.py lines 52-71): classify the documents,
reject multiple manifests, then reject a missing chart, group or manifest
(`if not all([self.charts, self.groups, self.manifest])`). -/
def manifestInit (documents : List Doc) (target : Option String) :
    Except ManifestError MState :=
  let r := find_documents documents target
  if 1 < r.2.2.length then
    .error (.manifestException multiManifestMsg)
  else
    match r.1, r.2.1, r.2.2 with
    | c :: cs, g :: gs, [m] => .ok ⟨c :: cs, g :: gs, m⟩
    | _, _, _ => .error (.manifestException missingKindMsg)

/-- `Manifest.find_chart_document` (manifest.py lines 107-121): first chart
document whose `metadata.name` equals `name`, else `BuildChartException`. -/
def find_chart_document (charts : List Doc) (name : String) :
    Except ManifestError Doc :=
  match charts.find? (fun c => c.nameOf == some name) with
  | some c => .ok c
  | none => .error (.buildChartException
      ("Could not find " ++ TYPE_CHART ++ " named \x22" ++ name ++ "\x22"))

/-- `Manifest.find_chart_group_document` (manifest.py lines 123-137). -/
def find_chart_group_document (groups : List Doc) (name : String) :
    Except ManifestError Doc :=
  match groups.find? (fun g => g.nameOf == some name) with
  | some g => .ok g
  | none => .error (.buildChartGroupException
      ("Could not find " ++ TYPE_CHARTGROUP ++ " named \x22" ++ name ++ "\x22"))

/-- Python string interpolation of a possibly-absent `metadata.name`
(`'{}'.format(None)` renders as `None`). -/
def Doc.pyName (d : Doc) : String := d.nameOf.getD "None"

/-- The message of the `ChartDependencyException` raised by
`_build_chart_deps` (manifest.py lines 159-162). -/
def depsErrMsg (chart : Doc) : String :=
  "Could not build dependencies for " ++ TYPE_CHART ++ " named \x22" ++
    chart.pyName ++ "\x22"

/-- The message of the `BuildChartGroupException` raised by
`_build_chart_group` (manifest.py lines 189-191). -/
def groupErrMsg (g : Doc) : String :=
  "Could not build " ++ TYPE_CHARTGROUP ++ " named \x22" ++ g.pyName ++ "\x22"

/-- Replace, in a document store mutated in place by the source, the first
document named `n` by its rebuilt version `d` — the position
`find_chart_document` / `find_chart_group_document` located. -/
def updateDoc : List Doc → String → Doc → List Doc
  | [], _, _ => []
  | c :: rest, n, d =>
    if c.nameOf == some n then d :: rest else c :: updateDoc rest n d

mutual

/-- `Manifest._build_chart_deps` (manifest.py lines 139-164): resolve the
string entries of `chart['data']['dependencies']` recursively; any failure
inside the loop is caught by `except Exception` and re-raised as a
`ChartDependencyException` naming this chart.  `none` is exhausted fuel:
the source recursion is unbounded, and every recursive step of the
embedding consumes one unit of fuel. -/
def build_chart_deps (fuel : Nat) (store : List Doc) (chart : Doc) :
    Option (Except ManifestError (List Doc × Doc)) :=
  match fuel with
  | 0 => none
  | f + 1 =>
    match depsLoop f store chart.depsGetD with
    | none => none
    | some (.error _) =>
      some (.error (.chartDependencyException (depsErrMsg chart)))
    | some (.ok (store2, es)) => some (.ok (store2, chart.setDeps es))

/-- The loop of `_build_chart_deps` (manifest.py lines 152-157): an entry
that is already a dict is skipped (`continue`); a name string is looked up,
recursively built, written back into the store (the in-place mutation of
the found document) and assigned into the list. -/
def depsLoop (fuel : Nat) (store : List Doc) (entries : List Entry) :
    Option (Except ManifestError (List Doc × List Entry)) :=
  match fuel with
  | 0 => none
  | f + 1 =>
    match entries with
    | [] => some (.ok (store, []))
    | .inr d :: rest =>
      match depsLoop f store rest with
      | none => none
      | some (.error e) => some (.error e)
      | some (.ok (store2, es)) => some (.ok (store2, .inr d :: es))
    | .inl name :: rest =>
      match find_chart_document store name with
      | .error e => some (.error e)
      | .ok depDoc =>
        match build_chart_deps f store depDoc with
        | none => none
        | some (.error e) => some (.error e)
        | some (.ok (store2, built)) =>
          match depsLoop f (updateDoc store2 name built) rest with
          | none => none
          | some (.error e) => some (.error e)
          | some (.ok (store3, es)) => some (.ok (store3, .inr built :: es))

end

/-- The loop of `_build_chart_group` (manifest.py lines 177-186): an entry
of the group that is already a dict is skipped; a name string is looked up,
its dependencies built, the store updated in place and the built chart
assigned into the list. -/
def groupChartsLoop (fuel : Nat) (store : List Doc) :
    List Entry → Option (Except ManifestError (List Doc × List Entry))
  | [] => some (.ok (store, []))
  | .inr d :: rest =>
    match groupChartsLoop fuel store rest with
    | none => none
    | some (.error e) => some (.error e)
    | some (.ok (store2, es)) => some (.ok (store2, .inr d :: es))
  | .inl name :: rest =>
    match find_chart_document store name with
    | .error e => some (.error e)
    | .ok cdoc =>
      match build_chart_deps fuel store cdoc with
      | none => none
      | some (.error e) => some (.error e)
      | some (.ok (store2, built)) =>
        match groupChartsLoop fuel (updateDoc store2 name built) rest with
        | none => none
        | some (.error e) => some (.error e)
        | some (.ok (store3, es)) => some (.ok (store3, .inr built :: es))

/-- `Manifest._build_chart_group` (manifest.py lines 166-193): run the
charts loop; every `ManifestException` raised inside it is replaced by a
`BuildChartGroupException` naming the enclosing group. -/
def build_chart_group (fuel : Nat) (store : List Doc) (g : Doc) :
    Option (Except ManifestError (List Doc × Doc)) :=
  match groupChartsLoop fuel store g.chartsGetD with
  | none => none
  | some (.error _) => some (.error (.buildChartGroupException (groupErrMsg g)))
  | some (.ok (store2, es)) => some (.ok (store2, g.setCharts es))

/-- The loop of `_build_armada_manifest` (manifest.py lines 204-213): an
entry of `manifest.data.chart_groups` that is already a dict is skipped; a
name string is looked up among the group documents (a lookup failure
propagates unwrapped), the group is built (failures propagate unwrapped),
the found group document is mutated in place (store update) and the built
group is assigned into the list. -/
def manifestGroupsLoop (fuel : Nat) (charts groups : List Doc) :
    List Entry →
      Option (Except ManifestError (List Doc × List Doc × List Entry))
  | [] => some (.ok (charts, groups, []))
  | .inr d :: rest =>
    match manifestGroupsLoop fuel charts groups rest with
    | none => none
    | some (.error e) => some (.error e)
    | some (.ok (cs, gs, es)) => some (.ok (cs, gs, .inr d :: es))
  | .inl name :: rest =>
    match find_chart_group_document groups name with
    | .error e => some (.error e)
    | .ok gdoc =>
      match build_chart_group fuel charts gdoc with
      | none => none
      | some (.error e) => some (.error e)
      | some (.ok (charts2, built)) =>
        match manifestGroupsLoop fuel charts2 (updateDoc groups name built)
            rest with
        | none => none
        | some (.error e) => some (.error e)
        | some (.ok (cs, gs, es)) => some (.ok (cs, gs, .inr built :: es))

/-- `Manifest._build_armada_manifest` (manifest.py lines 195-215): when the
manifest has no `data` or no `chart_groups` key the loop iterates the
default `[]` and the state is unchanged; otherwise the loop rebuilds the
`chart_groups` list in place. -/
def build_armada_manifest (fuel : Nat) (st : MState) :
    Option (Except ManifestError MState) :=
  match st.manifest.chartGroupsGetD with
  | none => some (.ok st)
  | some es =>
    match manifestGroupsLoop fuel st.charts st.groups es with
    | none => none
    | some (.error e) => some (.error e)
    | some (.ok (cs, gs, es2)) =>
      some (.ok ⟨cs, gs, st.manifest.setChartGroups es2⟩)

/-- `Manifest.get_manifest` (manifest.py lines 217-225): run
`_build_armada_manifest` and return the (mutated) manifest together with
the resulting object state. -/
def get_manifest (fuel : Nat) (st : MState) :
    Option (Except ManifestError (MState × Doc)) :=
  match build_armada_manifest fuel st with
  | none => none
  | some (.error e) => some (.error e)
  | some (.ok st2) => some (.ok (st2, st2.manifest))

/-- `Resolve(documents, targetName)`: construct the `Manifest` object and
build it, the composition a caller of the resolver performs
(`Manifest(documents, target).get_manifest()`). -/
def resolve (fuel : Nat) (documents : List Doc) (target : Option String) :
    Option (Except ManifestError MState) :=
  match manifestInit documents target with
  | .error e => some (.error e)
  | .ok st => build_armada_manifest fuel st

mutual

/-- A chart document is dependency-closed when every entry of its
`dependencies` list is an inlined document that is itself closed. -/
def chartClosedB : Doc → Bool
  | .mk _ _ none => true
  | .mk _ _ (some (.mk none _ _ _)) => true
  | .mk _ _ (some (.mk (some es) _ _ _)) => depsClosedB es

/-- Closure of a dependency-entry list: no name strings, all inlined
documents closed. -/
def depsClosedB : List Entry → Bool
  | [] => true
  | .inl _ :: _ => false
  | .inr d :: rest => chartClosedB d && depsClosedB rest

end

/-- A group document is closed when every entry of its `charts` list is an
inlined chart document that is dependency-closed. -/
def groupClosedB (g : Doc) : Bool :=
  g.chartsGetD.all (fun e =>
    match e with
    | .inl _ => false
    | .inr c => chartClosedB c)

/-- A manifest document is closed when every entry of its `chart_groups`
list is an inlined group document that is closed: the resolution-closure
invariant of the specification. -/
def manifestClosedB (m : Doc) : Bool :=
  ((m.chartGroupsGetD).getD []).all (fun e =>
    match e with
    | .inl _ => false
    | .inr g => groupClosedB g)

/-- Every entry of the list is a name string. -/
def allStrB (es : List Entry) : Bool :=
  es.all (fun e =>
    match e with
    | .inl _ => true
    | .inr _ => false)

/-- A document none of whose three entry lists contains a pre-inlined
object: the shape of documents parsed from plain YAML name references. -/
def allStrDocB (d : Doc) : Bool :=
  allStrB d.depsGetD && allStrB d.chartsGetD &&
    allStrB ((d.chartGroupsGetD).getD [])

/-- An entry that is a name string or an already-closed inlined chart. -/
def entryGoodB : Entry → Bool
  | .inl _ => true
  | .inr d => chartClosedB d

/-- A chart whose dict dependency entries are all closed (string entries
will be resolved when the chart is built). -/
def chartGoodB (c : Doc) : Bool := c.depsGetD.all entryGoodB

/-- An entry of a `charts` list that is a name string or an already
dependency-closed inlined chart. -/
def groupEntryGoodB : Entry → Bool
  | .inl _ => true
  | .inr c => chartClosedB c

/-- A group whose dict chart entries are all dependency-closed. -/
def groupGoodB (g : Doc) : Bool := g.chartsGetD.all groupEntryGoodB

/-- An entry of a `chart_groups` list that is a name string or an already
closed inlined group. -/
def manifestEntryGoodB : Entry → Bool
  | .inl _ => true
  | .inr g => groupClosedB g

/-- Python errors raised by code paths of the sources that operate on
unexpected values (`None.get`, iterating or extending by `None`,
a missing dict key, an unparseable timestamp, an unsupported comparison). -/
inductive PyErr : Type where
  | attributeError
  | typeError
  | keyError
  | valueError
deriving DecidableEq

/-- `ManifestHelper.get_chart_group_documents` (manifest.py lines 232-241):
`self.manifest.get(KEYWORD_DATA).get(KEYWORD_GROUPS)`.  A manifest without
a `data` section makes the second `get` an attribute access on `None`. -/
def get_chart_group_documents (m : Doc) :
    Except PyErr (Option (List Entry)) :=
  match m.dataOf with
  | none => .error .attributeError
  | some dd => .ok dd.chartGroupsOf

/-- One step of the list comprehension of `get_chart_groups`:
`group.get(KEYWORD_DATA)` on a name-string entry raises
`AttributeError`. -/
def cgStep (e : Entry) (acc : Except PyErr (List (Option DocData))) :
    Except PyErr (List (Option DocData)) :=
  match e, acc with
  | _, .error err => .error err
  | .inl _, _ => .error .attributeError
  | .inr g, .ok rest => .ok (g.dataOf :: rest)

/-- `ManifestHelper.get_chart_groups` (manifest.py lines 243-253): the
`data` section of each chart-group document.  Iterating a `None` result of
`get_chart_group_documents` raises `TypeError`. -/
def get_chart_groups (m : Doc) : Except PyErr (List (Option DocData)) :=
  match get_chart_group_documents m with
  | .error e => .error e
  | .ok none => .error .typeError
  | .ok (some es) => es.foldr cgStep (.ok [])

/-- One step of the loop of `get_chart_documents`: `None.get` on a group
without a `data` section raises `AttributeError`; `charts.extend(None)` on
a group without a `charts` key raises `TypeError`. -/
def cdStep (g : Option DocData) (acc : Except PyErr (List Entry)) :
    Except PyErr (List Entry) :=
  match g, acc with
  | _, .error err => .error err
  | none, _ => .error .attributeError
  | some dd, .ok rest =>
    match dd.chartsOf with
    | none => .error .typeError
    | some cs => .ok (cs ++ rest)

/-- `ManifestHelper.get_chart_documents` (manifest.py lines 255-269):
concatenation of `group.get(KEYWORD_CHARTS)` over the chart groups. -/
def get_chart_documents (m : Doc) : Except PyErr (List Entry) :=
  match get_chart_groups m with
  | .error e => .error e
  | .ok gs => gs.foldr cdStep (.ok [])

/-- One step of the list comprehension of `get_charts`:
`chart.get(KEYWORD_DATA)` on a name-string entry raises
`AttributeError`. -/
def cStep (c : Entry) (acc : Except PyErr (List (Option DocData))) :
    Except PyErr (List (Option DocData)) :=
  match c, acc with
  | _, .error err => .error err
  | .inl _, _ => .error .attributeError
  | .inr d, .ok rest => .ok (d.dataOf :: rest)

/-- `ManifestHelper.get_charts` (manifest.py lines 271-281): the `data`
section of each chart document. -/
def get_charts (m : Doc) : Except PyErr (List (Option DocData)) :=
  match get_chart_documents m with
  | .error e => .error e
  | .ok cs => cs.foldr cStep (.ok [])

/-- `ManifestHelper.get_release_prefix` (manifest.py lines 283-290):
`self.manifest.get(KEYWORD_DATA).get(KEYWORD_PREFIX)` via an intermediate
variable, so a missing `data` section raises `AttributeError`. -/
def get_release_pfx (m : Doc) : Except PyErr (Option String) :=
  match m.dataOf with
  | none => .error .attributeError
  | some dd => .ok dd.releasePfx

/-- Whether an `Except` computation returned normally. -/
def exceptOk {ε α : Type} : Except ε α → Bool
  | .ok _ => true
  | .error _ => false

/-- Substring test on the underlying character lists, used to state what an
error message mentions. -/
def strMentionsAux (s : List Char) : List Char → Bool
  | [] => s.isEmpty
  | c :: rest => List.isPrefixOf s (c :: rest) || strMentionsAux s rest

/-- Whether `msg` mentions `sub` (contains it as a substring). -/
def strMentions (msg sub : String) : Bool :=
  strMentionsAux sub.data msg.data

/-
Lock coordinator (`armada/handlers/lock.py`).  Wall-clock instants are
embedded as integers (seconds); the `data.lastUpdated` value of a lock
object is embedded as `Option (Option Int)`: `none` when the key is
absent (so `lock['data']['lastUpdated']` raises `KeyError`), `some none`
when present but not parseable by `datetime.strptime` (which raises
`ValueError`), and `some (some t)` when it parses to the instant `t`.
The kubernetes API is an external collaborator; each API call's outcome
is supplied by the environment.
-/

/-- A cluster lock custom-resource object as far as the lock handler reads
it: `metadata.uid` and `data.lastUpdated`. -/
structure LockObj : Type where
  uid : String
  lastUpdated : Option (Option Int)
deriving DecidableEq

/-- The value `Lock.lock_age` returns: a `datetime.timedelta` when a lock
object exists, or the plain `int` literal `0` when none does (lock.py line
111 returns `0`, not a timedelta). -/
inductive AgeResult : Type where
  | timeDelta (seconds : Int)
  | intZero
deriving DecidableEq

/-- `Lock.lock_age` (lock.py lines 103-111): with a lock object present the
age is `utcnow() - strptime(lock['data']['lastUpdated'])`; a missing
`lastUpdated` key raises `KeyError` and an unparseable one raises
`ValueError`.  Without a lock object the `int` `0` is returned. -/
def lock_age (now : Int) (lock : Option LockObj) : Except PyErr AgeResult :=
  match lock with
  | some l =>
    match l.lastUpdated with
    | none => .error .keyError
    | some none => .error .valueError
    | some (some t) => .ok (.timeDelta (now - t))
  | none => .ok .intZero

/-- The comparison `self.lock_age() > timedelta(seconds=self.expire_time)`
(lock.py line 141): comparing two timedeltas compares the ages, while
comparing the `int` `0` with a timedelta raises `TypeError`. -/
def expiryCheck (age : Except PyErr AgeResult) (expire : Int) :
    Except PyErr Bool :=
  match age with
  | .error e => .error e
  | .ok (.timeDelta d) => .ok (decide (expire < d))
  | .ok .intZero => .error .typeError

/-- `Lock._test_lock_ownership` (lock.py lines 92-101): the lock is ours
when its `metadata.uid` equals the uid recorded at creation; a missing lock
object is not ours. -/
def testLockOwnership (myUid : Option String) (lock : Option LockObj) :
    Bool :=
  match lock with
  | some l => myUid == some l.uid
  | none => false

/-- Outcome of a kubernetes API call: a result or an `ApiException` with an
HTTP status. -/
inductive ApiResult (α : Type) : Type where
  | ok (a : α)
  | err (status : Nat)
deriving DecidableEq

/-- The environment of one iteration of the acquisition loop: the
`time.time()` reading at the `while` condition, the outcome of
`create_lock`, and (when reached) the `get_lock` reads of
`_test_lock_ownership` and `lock_age` together with the `utcnow()` reading
inside `lock_age`. -/
structure AcquireStep : Type where
  tCheck : Int
  createResult : ApiResult String
  ownLock : Option LockObj
  ageLock : Option LockObj
  ageNow : Int
deriving DecidableEq

/-- Observable events of one acquisition run, in order. -/
inductive AcqEvent : Type where
  | createAttempt
  | crdCreated
  | staleReleased
  | slept
deriving DecidableEq

/-- How one acquisition run ended. -/
inductive AcqOutcome : Type where
  | acquired
  | lockTimeout
  | raised (e : PyErr)
  | apiFatal (status : Nat)
deriving DecidableEq

/-- Result of the body of one acquisition-loop iteration: the loop either
finishes with an outcome or goes around again after the recorded event. -/
inductive IterResult : Type where
  | finish (o : AcqOutcome)
  | retry (ev : AcqEvent)
deriving DecidableEq

/-- The body of one iteration of `Lock.acquire_lock` (lock.py lines
117-147): a successful `create_lock` acquires; a 404 installs the CRD and
continues without sleeping; a 409 falls through to the ownership test and
then to the expiry check — whose outcome is a stale-lock release and
`continue`, a propagating error, or the `sleep(acquire_delay)` before the
next iteration; any other API status propagates. -/
def iterOutcome (s : AcquireStep) (myUid : Option String) (expire : Int) :
    IterResult :=
  match s.createResult with
  | .ok _ => .finish .acquired
  | .err 404 => .retry .crdCreated
  | .err 409 =>
    if testLockOwnership myUid s.ownLock then .finish .acquired
    else
      match expiryCheck (lock_age s.ageNow s.ageLock) expire with
      | .error e => .finish (.raised e)
      | .ok true => .retry .staleReleased
      | .ok false => .retry .slept
  | .err st => .finish (.apiFatal st)

/-- `Lock.acquire_lock` (lock.py lines 113-148).  The `while` condition
`(time.time() - start) < self.timeout` is checked at the top of every
iteration, before any creation attempt; when it fails, `LockException`
ends the run.  Each loop iteration consumes one environment step and
records its creation attempt; `none` means the environment was exhausted
while the loop was still running. -/
def acquire_lock (start timeout expire : Int) (myUid : Option String) :
    List AcquireStep → Option (AcqOutcome × List AcqEvent)
  | [] => none
  | s :: rest =>
    if s.tCheck - start < timeout then
      match iterOutcome s myUid expire with
      | .finish o => some (o, [.createAttempt])
      | .retry ev =>
        match acquire_lock start timeout expire myUid rest with
        | none => none
        | some (o, evs) => some (o, .createAttempt :: ev :: evs)
    else some (.lockTimeout, [])

/-- Observable lock events of a `lock_and_thread` run. -/
inductive LockEvent : Type where
  | acquired
  | heartbeat
  | released
deriving DecidableEq

/-- The heartbeat polling loop of `lock_and_thread.func_wrapper` (lock.py
lines 58-62), abstracted over the outcomes of the successive
`lock.update_lock()` calls issued before the future completes: events of
the successful heartbeats and the first failure, if any. -/
def hbEvents : List (Except PyErr Unit) → Option PyErr × List LockEvent
  | [] => (none, [])
  | .ok _ :: rest =>
    let r := hbEvents rest
    (r.1, .heartbeat :: r.2)
  | .error e :: _ => (some e, [])

/-- `lock_and_thread.func_wrapper` (lock.py lines 53-63): enter
`with Lock(...)` (acquire), submit the work to a one-thread pool, poll its
completion while periodically heartbeating, take `future.result()`, and
leave the `with` block — whose `__exit__` (lock.py lines 162-164) releases
the lock and, returning `False`, lets any exception propagate.  The work
running in the pool thread is abstracted by its outcome, the heartbeats by
the list of their outcomes; a failed acquisition propagates out of
`__enter__` before anything is held. -/
def funcWrapper {α : Type} (acquire : Except PyErr Unit)
    (hbs : List (Except PyErr Unit)) (work : Except PyErr α) :
    Except PyErr α × List LockEvent :=
  match acquire with
  | .error e => (.error e, [])
  | .ok _ =>
    match hbEvents hbs with
    | (some e, evs) => (.error e, .acquired :: (evs ++ [.released]))
    | (none, evs) => (work, .acquired :: (evs ++ [.released]))

/-- The timing skeleton of the polling loop of `func_wrapper` (lock.py
lines 57-62) in whole seconds: with `rem` polls left before the future
completes and `e` seconds elapsed since the last `start = time.time()`, a
poll heartbeats exactly when `e` exceeds the update interval `u` (the
strict comparison of line 59) and then resets the elapsed counter; each
iteration ends in `time.sleep(1)`. -/
def hbLoopAux (u : Nat) : Nat → Nat → Nat
  | 0, _ => 0
  | rem + 1, e => if u < e then hbLoopAux u rem 1 + 1 else hbLoopAux u rem (e + 1)

/-- Number of heartbeats issued while work lasting `d` seconds runs under
`lock_and_thread`, polling once per second from elapsed time `0`. -/
def hbCount (u d : Nat) : Nat := hbLoopAux u d 0

/-- A Python dict with string keys and values, as a key-value list. -/
abbrev PyDict : Type := List (String × String)

/-- Python `dict[k] = v`: replace the first binding of `k`, else append. -/
def dictSet (d : PyDict) (k v : String) : PyDict :=
  match d with
  | [] => [(k, v)]
  | (k2, v2) :: rest =>
    if k2 == k then (k, v) :: rest else (k2, v2) :: dictSet rest k v

/-- Python `k in d` / `d.get(k)` as an option. -/
def dictGet (d : PyDict) (k : String) : Option String :=
  match d with
  | [] => none
  | (k2, v2) :: rest => if k2 == k then some v2 else dictGet rest k

/-- The identity of the dict a `LockConfig` uses as its `data` section,
together with the heap of caller-visible dicts (addresses are indices). -/
structure LockCfgState : Type where
  dataAddr : Nat
  heap : List PyDict

/-- `LockConfig.__init__` (lock.py lines 169-182):
`data = additional_data or dict()`.  Because `or` tests Python truthiness,
a caller-supplied dict is stored (aliased) only when it is non-empty; a
missing or empty `additional_data` makes the lock body use a fresh empty
dict.  `callerAddr` is the address of the caller's dict, `none` when the
argument was `None`. -/
def lockConfigInit (heap : List PyDict) (callerAddr : Option Nat) :
    LockCfgState :=
  match callerAddr with
  | some a =>
    if ((heap.getD a []).isEmpty : Bool) then
      ⟨heap.length, heap ++ [([] : PyDict)]⟩
    else ⟨a, heap⟩
  | none => ⟨heap.length, heap ++ [([] : PyDict)]⟩

/-- Set key `k` to `v` in the heap cell at the given address. -/
def heapSetKey : List PyDict → Nat → String → String → List PyDict
  | [], _, _, _ => []
  | d :: rest, 0, k, v => dictSet d k v :: rest
  | d :: rest, n + 1, k, v => d :: heapSetKey rest n k v

/-- The `data` mutation of `LockConfig.create_lock` (lock.py lines
189-190): `self.body['data']['lastUpdated'] = utcnow().strftime(...)`,
written into whichever dict `self.body['data']` is. -/
def createLockData (st : LockCfgState) (ts : String) : LockCfgState :=
  ⟨st.dataAddr, heapSetKey st.heap st.dataAddr "lastUpdated" ts⟩

/-- The `data` mutation of `LockConfig.replace_lock` (lock.py lines
250-251), identical in effect on the `data` dict to `create_lock`. -/
def replaceLockData (st : LockCfgState) (ts : String) : LockCfgState :=
  createLockData st ts

/-
Concrete document sets used by counterexamples and witnesses.
-/

/-- A chart document named `A` with an empty dependency list. -/
def chartA : Doc :=
  .mk (some "armada/Chart/v1") (some "A")
    (some (.mk (some []) none none none))

/-- A chart document named `B` with an empty dependency list. -/
def chartB : Doc :=
  .mk (some "armada/Chart/v1") (some "B")
    (some (.mk (some []) none none none))

/-- A chart document named `D` depending on `B` by name. -/
def chartD : Doc :=
  .mk (some "armada/Chart/v1") (some "D")
    (some (.mk (some [Sum.inl "B"]) none none none))

/-- A pre-inlined chart object whose own `dependencies` list still holds
the name string `A`. -/
def c1inlined : Doc :=
  .mk (some "armada/Chart/v1") (some "Inlined")
    (some (.mk (some [Sum.inl "A"]) none none none))

/-- A group whose `charts` list holds the pre-inlined object. -/
def c1group : Doc :=
  .mk (some "armada/ChartGroup/v1") (some "G")
    (some (.mk none (some [Sum.inr c1inlined]) none none))

/-- A manifest referencing group `G` by name. -/
def c1manifest : Doc :=
  .mk (some "armada/Manifest/v1") (some "M")
    (some (.mk none none (some [Sum.inl "G"]) (some "armada")))

/-- Document set with a pre-inlined chart entry that still holds a name
string inside. -/
def c1docs : List Doc := [chartA, c1group, c1manifest]

/-- Whether a run of `resolve` succeeded with a closed manifest. -/
def resolvedClosed : Option (Except ManifestError MState) → Option Bool
  | some (.ok st) => some (manifestClosedB st.manifest)
  | _ => none

/-- A group `G` listing the absent bundle name `X`. -/
def c2group : Doc :=
  .mk (some "armada/ChartGroup/v1") (some "G")
    (some (.mk none (some [Sum.inl "X"]) none none))

/-- Document set in which group `G` lists the missing bundle `X`. -/
def c2docs : List Doc := [chartA, c2group, c1manifest]

/-- The message the resolver actually raises for `c2docs`. -/
def c2msg : String := "Could not build ChartGroup named \x22G\x22"

/-- Group `G` whose single chart is `D` by name (`D` depends on `B`). -/
def c10group : Doc :=
  .mk (some "armada/ChartGroup/v1") (some "G")
    (some (.mk none (some [Sum.inl "D"]) none none))

/-- Well-formed document set with a dependency chain `G → D → B`. -/
def c10docs : List Doc := [chartB, chartD, c10group, c1manifest]

/-- A bare `dict()` pre-inlined where a group object is expected. -/
def emptyDoc : Doc := .mk none none none

/-- A manifest whose `chart_groups` pre-inlines a bare dict. -/
def c8manifest : Doc :=
  .mk (some "armada/Manifest/v1") (some "M")
    (some (.mk none none (some [Sum.inr emptyDoc]) (some "armada")))

/-- A proper group document (not referenced by the manifest). -/
def c8group : Doc :=
  .mk (some "armada/ChartGroup/v1") (some "G")
    (some (.mk none (some []) none none))

/-- Document set that resolves successfully but whose pre-inlined bare
dict breaks the accessors. -/
def c8docs : List Doc := [chartA, c8group, c8manifest]

/-- Result of `get_chart_documents` on the manifest of a resolved state. -/
def resolvedChartDocs : Option (Except ManifestError MState) →
    Option (Except PyErr (List Entry))
  | some (.ok st) => some (get_chart_documents st.manifest)
  | _ => none

/-- Manifest document named `M1`. -/
def manifestM1 : Doc :=
  .mk (some "armada/Manifest/v1") (some "M1")
    (some (.mk none none (some [Sum.inl "G"]) (some "armada")))

/-- Manifest document named `M2`. -/
def manifestM2 : Doc :=
  .mk (some "armada/Manifest/v1") (some "M2")
    (some (.mk none none (some []) (some "other")))

/-- Document set containing two manifests. -/
def c6docs : List Doc := [chartA, c8group, manifestM1, manifestM2]

/-- Acquisition step: creation conflicts, the conflicting lock is not ours
and carries no `lastUpdated` key. -/
def c3step : AcquireStep :=
  ⟨0, .err 409, some ⟨"other", none⟩, some ⟨"other", none⟩, 50⟩

/-- Acquisition step whose while-condition fails for `timeout = 0`. -/
def c7step : AcquireStep :=
  ⟨0, .err 409, some ⟨"other", some (some 0)⟩, some ⟨"other", some (some 0)⟩, 5⟩

/-- Acquisition step whose creation attempt succeeds. -/
def c7okstep : AcquireStep := ⟨0, .ok "uid-1", none, none, 0⟩

/-- The manifest-selection predicate applied by `_find_documents`: a
document of manifest schema that, when `target_manifest` is truthy, bears
the target name. -/
def manifestSelB (target : Option String) (d : Doc) : Bool :=
  (get_schema_info d.schemaOf == some SchemaType.manifest) &&
    (!targetTruthy target || d.nameOf == target)

/-- Whether an entry is an inlined document (a dict, not a name string). -/
def entryIsDoc : Entry → Bool
  | .inl _ => false
  | .inr _ => true

/-- Well-formedness of one group's `data` section for the accessors: it is
present and its `charts` list is present with only inlined documents in
it. -/
def gdataWF : Option DocData → Bool
  | none => false
  | some gd =>
    match gd.chartsOf with
    | none => false
    | some cl => cl.all entryIsDoc

/-- Well-formedness of one `chart_groups` entry for the accessors: an
inlined document whose `data` section is accessor-well-formed. -/
def groupEntryWF : Entry → Bool
  | .inl _ => false
  | .inr g => gdataWF g.dataOf

/-- Well-formedness of a resolved manifest under which the
`ManifestHelper` accessors cannot hit a `None` or a non-dict value: the
`chart_groups` list is present and each of its entries is an inlined
document with a `data` section holding a present `charts` list whose
entries are all inlined documents. -/
def accessorsWF (m : Doc) : Bool :=
  match m.dataOf with
  | none => false
  | some dd =>
    match dd.chartGroupsOf with
    | none => false
    | some gl => gl.all groupEntryWF

/-- Chart `D` after resolution: its dependency on `B` inlined. -/
def builtD : Doc :=
  .mk (some "armada/Chart/v1") (some "D")
    (some (.mk (some [Sum.inr chartB]) none none none))

/-- Group `G` of `c10docs` after resolution: chart `D` inlined. -/
def builtG : Doc :=
  .mk (some "armada/ChartGroup/v1") (some "G")
    (some (.mk none (some [Sum.inr builtD]) none none))

/-- The manifest of `c10docs` after resolution: group `G` inlined. -/
def builtM : Doc :=
  .mk (some "armada/Manifest/v1") (some "M")
    (some (.mk none none (some [Sum.inr builtG]) (some "armada")))

/-- The full resolved state of `c10docs`. -/
def stC10 : MState := ⟨[chartB, builtD], [builtG], builtM⟩

end Armada


/-
Theorems.  Helper lemmas come first; each claim then gets exactly one
theorem (with counterexample and witness theorems where required).
-/

namespace Armada

theorem dictGet_dictSet (d : PyDict) (k v : String) :
    dictGet (dictSet d k v) k = some v := by
  induction d with
  | nil => simp [dictSet, dictGet]
  | cons kv rest ih =>
    by_cases h : kv.1 == k
    · simp [dictSet, dictGet, h]
    · simp [dictSet, dictGet, h, ih]

theorem heapSetKey_getD (heap : List PyDict) (n : Nat) (k v : String)
    (h : n < heap.length) :
    (heapSetKey heap n k v).getD n [] = dictSet (heap.getD n []) k v := by
  induction heap generalizing n with
  | nil => simp at h
  | cons d rest ih =>
    cases n with
    | zero => simp [heapSetKey]
    | succ m =>
      simp only [heapSetKey, List.getD_cons_succ]
      exact ih m (by simpa using h)

theorem hbLoopAux_eq (u : Nat) :
    ∀ rem e, e ≤ u + 1 → hbLoopAux u rem e = (rem + e - 1) / (u + 1) := by
  intro rem
  induction rem with
  | zero =>
    intro e he
    have h1 : 0 + e - 1 < u + 1 := by omega
    simp only [hbLoopAux]
    rw [Nat.div_eq_of_lt h1]
  | succ r ih =>
    intro e he
    by_cases h : u < e
    · have he2 : e = u + 1 := by omega
      simp only [hbLoopAux, if_pos h]
      rw [ih 1 (by omega)]
      have h1 : r + 1 - 1 = r := by omega
      have h2 : r + 1 + e - 1 = r + (u + 1) := by omega
      rw [h1, h2, Nat.add_div_right r (by omega)]
    · simp only [hbLoopAux, if_neg h]
      rw [ih (e + 1) (by omega)]
      have : r + (e + 1) - 1 = r + 1 + e - 1 := by omega
      rw [this]

theorem getLast?_cons_concat {α : Type} (x a : α) (l : List α) :
    (x :: (l ++ [a])).getLast? = some a := by
  rw [← List.cons_append]
  exact List.getLast?_concat _

end Armada

namespace Armada

/-- C3 (amended).  The age of a lock with a parseable `lastUpdated` is
current UTC time minus the parsed timestamp.  When `lastUpdated` is absent
the `KeyError` of `lock['data']['lastUpdated']` propagates, and when it is
unparseable the `ValueError` of `strptime` propagates — the lock is not
treated as infinitely old.  When no lock object exists, `lock_age` returns
the plain `int` zero, but the acquisition loop's comparison of that `int`
with the expiry timedelta raises `TypeError` instead of retrying. -/
theorem C3_lock_age_semantics :
    (∀ (now : Int) (l : LockObj) (t : Int), l.lastUpdated = some (some t) →
      lock_age now (some l) = .ok (.timeDelta (now - t))) ∧
    (∀ (now : Int) (l : LockObj), l.lastUpdated = none →
      lock_age now (some l) = .error .keyError) ∧
    (∀ (now : Int) (l : LockObj), l.lastUpdated = some none →
      lock_age now (some l) = .error .valueError) ∧
    (∀ now : Int, lock_age now none = .ok .intZero) ∧
    (∀ expire : Int, expiryCheck (.ok .intZero) expire = .error .typeError) := by
  refine ⟨?_, ?_, ?_, fun _ => rfl, fun _ => rfl⟩
  · intro now l t h
    simp [lock_age, h]
  · intro now l h
    simp [lock_age, h]
  · intro now l h
    simp [lock_age, h]

/-- C3 witness: each part of the amended lock-age semantics evaluated at a
concrete input. -/
theorem C3_lock_age_semantics_witness :
    lock_age 50 (some ⟨"u", some (some 20)⟩) = .ok (.timeDelta (50 - 20)) ∧
    lock_age 50 (some ⟨"u", none⟩) = .error .keyError ∧
    lock_age 50 (some ⟨"u", some none⟩) = .error .valueError ∧
    lock_age 50 none = .ok .intZero ∧
    expiryCheck (.ok .intZero) 30 = .error .typeError :=
  ⟨C3_lock_age_semantics.1 50 ⟨"u", some (some 20)⟩ 20 rfl,
   C3_lock_age_semantics.2.1 50 ⟨"u", none⟩ rfl,
   C3_lock_age_semantics.2.2.1 50 ⟨"u", some none⟩ rfl,
   C3_lock_age_semantics.2.2.2.1 50,
   C3_lock_age_semantics.2.2.2.2 30⟩

/-- C3 counterexample.  A conflicting lock whose `lastUpdated` key is
absent: the claim says it is treated as infinitely old and hence force
expired (the loop would release it and continue), but the acquisition run
raises `KeyError` at the first age check instead. -/
theorem C3_counterexample :
    acquire_lock 0 100 30 none [c3step] =
      some (.raised .keyError, [.createAttempt]) := rfl

/-- C4 (confirmed).  `lock_and_thread` with a successful acquisition: the
event trace of a run ends with the lock release whatever the heartbeat and
work outcomes (the lock is released on every exit path), and whenever the
heartbeats succeed the wrapper's result is exactly the work's outcome —
its value on normal return, its error when the work raised. -/
theorem C4_run_with_lock_releases :
    (∀ (α : Type) (hbs : List (Except PyErr Unit)) (work : Except PyErr α),
      ((funcWrapper (.ok ()) hbs work).2).getLast? = some .released) ∧
    (∀ (α : Type) (hbs : List (Except PyErr Unit)) (work : Except PyErr α),
      (hbEvents hbs).1 = none → (funcWrapper (.ok ()) hbs work).1 = work) := by
  constructor
  · intro α hbs work
    unfold funcWrapper
    rcases h : hbEvents hbs with ⟨e, evs⟩
    cases e <;> simp [getLast?_cons_concat]
  · intro α hbs work h
    unfold funcWrapper
    rcases h2 : hbEvents hbs with ⟨e, evs⟩
    rw [h2] at h
    cases e with
    | none => rfl
    | some e2 => simp at h

/-- C4 witness: a failing work outcome under one successful heartbeat —
the trace ends with the release and the work error is propagated. -/
theorem C4_run_with_lock_releases_witness :
    ((funcWrapper (.ok ()) [Except.ok ()]
        (.error .typeError : Except PyErr Nat)).2).getLast? = some .released ∧
    (funcWrapper (.ok ()) [Except.ok ()]
        (.error .typeError : Except PyErr Nat)).1 = .error .typeError :=
  ⟨C4_run_with_lock_releases.1 Nat [Except.ok ()] (.error .typeError),
   C4_run_with_lock_releases.2 Nat [Except.ok ()] (.error .typeError) rfl⟩

/-- C5 (amended).  Under the 1-second polling of `func_wrapper` (strict
comparison `time.time() - start > updateInterval`, then `sleep(1)`), work
lasting `d` whole seconds sees exactly `(d - 1) / (u + 1)` heartbeats for
update interval `u` — so 3 for the S6 instance `d = 10`, `u = 2` — and not
the claimed `d / u - 1`. -/
theorem C5_heartbeat_count :
    (∀ u d : Nat, hbCount u d = (d - 1) / (u + 1)) ∧ hbCount 2 10 = 3 := by
  constructor
  · intro u d
    unfold hbCount
    rw [hbLoopAux_eq u d 0 (by omega)]
    congr 1
  · rfl

/-- C5 counterexample.  For work lasting 10 seconds with update interval 2
the loop issues 3 heartbeats, fewer than the `⌊10/2⌋ − 1 = 4` the claim's
formula demands. -/
theorem C5_counterexample : hbCount 2 10 < 10 / 2 - 1 := by decide

/-- C7 (amended).  The acquisition loop checks the wall-clock budget at
the top of every iteration, before the iteration's creation attempt: when
the budget is already exhausted at the check — in particular always when
`timeout = 0` — the loop fails with `LockException` having performed no
creation attempt at all; whenever the check passes, the iteration records
a creation attempt before any outcome. -/
theorem C7_timeout_placement :
    (∀ (start timeout expire : Int) (uid : Option String)
        (s : AcquireStep) (rest : List AcquireStep),
      timeout ≤ s.tCheck - start →
      acquire_lock start timeout expire uid (s :: rest) =
        some (.lockTimeout, [])) ∧
    (∀ (start timeout expire : Int) (uid : Option String)
        (s : AcquireStep) (rest : List AcquireStep)
        (o : AcqOutcome) (evs : List AcqEvent),
      s.tCheck - start < timeout →
      acquire_lock start timeout expire uid (s :: rest) = some (o, evs) →
      evs.head? = some .createAttempt) := by
  constructor
  · intro start timeout expire uid s rest h
    simp only [acquire_lock]
    rw [if_neg (by omega)]
  · intro start timeout expire uid s rest o evs hlt h
    simp only [acquire_lock] at h
    rw [if_pos hlt] at h
    rcases hi : iterOutcome s uid expire with o2 | ev
    · rw [hi] at h
      injection h with h1
      injection h1 with _ h2
      rw [← h2]
      rfl
    · rw [hi] at h
      rcases hr : acquire_lock start timeout expire uid rest with _ | p
      · rw [hr] at h
        exact absurd h (by simp)
      · rcases p with ⟨o3, evs3⟩
        rw [hr] at h
        injection h with h1
        injection h1 with _ h2
        rw [← h2]
        rfl

/-- C7 witness: a zero budget fails with no attempt; a positive budget
attempts creation in its first iteration. -/
theorem C7_timeout_placement_witness :
    ((0 : Int) ≤ c7step.tCheck - 0 ∧
      acquire_lock 0 0 30 none [c7step] = some (.lockTimeout, [])) ∧
    [AcqEvent.createAttempt].head? = some .createAttempt :=
  ⟨⟨by decide, C7_timeout_placement.1 0 0 30 none c7step [] (by decide)⟩,
   C7_timeout_placement.2 0 100 30 none c7okstep [] .acquired
     [.createAttempt] (by decide) rfl⟩

/-- C7 counterexample.  With `timeout = 0` the acquisition run fails with
`LockException` and its event trace is empty: zero creation attempts were
made, where the claim demands at least one. -/
theorem C7_counterexample :
    acquire_lock 0 0 30 none [c7step] = some (.lockTimeout, []) ∧
    ([] : List AcqEvent).count .createAttempt = 0 :=
  ⟨rfl, rfl⟩

/-- C9 (amended).  A caller-supplied non-empty `additional_data` dict is
stored by `LockConfig` as the lock body's `data` section itself (not a
copy), and both `create_lock` and `replace_lock` write `lastUpdated` into
it, mutating the caller's dict in place.  (A caller-supplied empty dict is
falsy in `additional_data or dict()`, so it is replaced by a fresh dict
and never mutated — the universal claim fails there.) -/
theorem C9_additional_data_aliasing :
    ∀ (heap : List PyDict) (a : Nat) (ts : String),
      a < heap.length → (heap.getD a []).isEmpty = false →
      (lockConfigInit heap (some a)).dataAddr = a ∧
      dictGet ((createLockData (lockConfigInit heap (some a)) ts).heap.getD
        a []) "lastUpdated" = some ts ∧
      dictGet ((replaceLockData (lockConfigInit heap (some a)) ts).heap.getD
        a []) "lastUpdated" = some ts := by
  intro heap a ts hlen hne
  have hinit : lockConfigInit heap (some a) = ⟨a, heap⟩ := by
    simp only [lockConfigInit]
    rw [hne]
    simp
  refine ⟨by rw [hinit], ?_, ?_⟩
  · rw [hinit]
    show dictGet ((heapSetKey heap a "lastUpdated" ts).getD a []) _ = _
    rw [heapSetKey_getD heap a _ _ hlen]
    exact dictGet_dictSet _ _ _
  · rw [hinit]
    show dictGet ((heapSetKey heap a "lastUpdated" ts).getD a []) _ = _
    rw [heapSetKey_getD heap a _ _ hlen]
    exact dictGet_dictSet _ _ _

/-- C9 witness: a one-entry caller dict is aliased and receives the
heartbeat timestamp on create and on replace. -/
theorem C9_additional_data_aliasing_witness :
    (lockConfigInit [[("k", "v")]] (some 0)).dataAddr = 0 ∧
    dictGet ((createLockData (lockConfigInit [[("k", "v")]] (some 0))
      "T").heap.getD 0 []) "lastUpdated" = some "T" ∧
    dictGet ((replaceLockData (lockConfigInit [[("k", "v")]] (some 0))
      "T").heap.getD 0 []) "lastUpdated" = some "T" :=
  C9_additional_data_aliasing [[("k", "v")]] 0 "T" (by decide) (by decide)

/-- C9 counterexample.  A caller-supplied empty dict: `LockConfig` stores
a fresh dict at a new address instead of the caller's, and `create_lock`
leaves the caller's dict without any `lastUpdated` key — the claim's
"every caller-supplied dictionary is stored and mutated" is false. -/
theorem C9_counterexample :
    (lockConfigInit [([] : PyDict)] (some 0)).dataAddr = 1 ∧
    dictGet ((createLockData (lockConfigInit [([] : PyDict)] (some 0))
      "T").heap.getD 0 []) "lastUpdated" = none := by
  constructor <;> rfl

end Armada

namespace Armada

theorem find_documents_manifests (docs : List Doc) (t : Option String) :
    (find_documents docs t).2.2 = docs.filter (manifestSelB t) := by
  induction docs with
  | nil => rfl
  | cons d rest ih =>
    simp only [find_documents]
    rcases h : get_schema_info d.schemaOf with _ | ty
    · simp [List.filter_cons, manifestSelB, h, ih]
    · cases ty
      · simp [List.filter_cons, manifestSelB, h, ih]
      · simp [List.filter_cons, manifestSelB, h, ih]
      · by_cases ht : targetTruthy t
        · by_cases hn : (d.nameOf == t) = true
          · simp [List.filter_cons, manifestSelB, h, ht, hn, ih]
          · simp [List.filter_cons, manifestSelB, h, ht, hn, ih]
        · simp [List.filter_cons, manifestSelB, h, ht, ih]

/-- C6 (confirmed).  After classification, the manifests are exactly the
documents passing the target filter (all manifests when the target is
unset).  Zero remaining manifests make `__init__` fail with the
missing-kind message; more than one makes it fail with the
multiple-manifests message; the two messages differ; and when exactly one
manifest remains and at least one chart and one group were found,
`__init__` succeeds selecting that manifest. -/
theorem C6_manifest_selection :
    ∀ (docs : List Doc) (t : Option String) (cs gs ms : List Doc),
      find_documents docs t = (cs, gs, ms) →
      (ms = docs.filter (manifestSelB t) ∧
       (ms = [] →
         manifestInit docs t = .error (.manifestException missingKindMsg)) ∧
       (1 < ms.length →
         manifestInit docs t = .error (.manifestException multiManifestMsg)) ∧
       missingKindMsg ≠ multiManifestMsg ∧
       (∀ m, ms = [m] → cs ≠ [] → gs ≠ [] →
         manifestInit docs t = .ok ⟨cs, gs, m⟩)) := by
  intro docs t cs gs ms h
  refine ⟨?_, ?_, ?_, by decide, ?_⟩
  · rw [← find_documents_manifests docs t, h]
  · intro hms
    subst hms
    cases cs <;> cases gs <;> simp [manifestInit, h]
  · intro h1
    simp only [manifestInit, h]
    rw [if_pos h1]
  · intro m hm hcs hgs
    subst hm
    rcases cs with _ | ⟨c, cs2⟩
    · exact absurd rfl hcs
    · rcases gs with _ | ⟨g, gs2⟩
      · exact absurd rfl hgs
      · simp [manifestInit, h]

/-- C6 witness: among two manifests, the target name selects `M1` and
initialisation succeeds with it. -/
theorem C6_manifest_selection_witness :
    manifestInit c6docs (some "M1") = .ok ⟨[chartA], [c8group], manifestM1⟩ ∧
    [manifestM1] = c6docs.filter (manifestSelB (some "M1")) :=
  have h := C6_manifest_selection c6docs (some "M1") [chartA] [c8group]
    [manifestM1] rfl
  ⟨h.2.2.2.2 manifestM1 rfl (by simp) (by simp), h.1⟩

end Armada

namespace Armada

theorem build_chart_group_error (fuel : Nat) (store : List Doc) (g : Doc)
    (e : ManifestError)
    (h : build_chart_group fuel store g = some (.error e)) :
    e = .buildChartGroupException (groupErrMsg g) := by
  unfold build_chart_group at h
  rcases h2 : groupChartsLoop fuel store g.chartsGetD with _ | r
  · rw [h2] at h
    exact absurd h (by simp)
  · rcases r with e2 | p
    · rw [h2] at h
      injection h with h1
      injection h1 with h3
      exact h3.symm
    · rw [h2] at h
      exact absurd h (by simp)

/-- C2 (amended).  When building a group fails — in particular when the
group lists a bundle name absent from the chart documents — the resolver
reports a `BuildChartGroupException` whose message names the enclosing
group; the inner lookup error naming the missing bundle is replaced by it,
so the final message mentions the group name `G` but not the missing
bundle name `X`.  A lookup failure at the group level is thus reported
with the enclosing group's name. -/
theorem C2_missing_reference :
    ∀ (fuel : Nat) (docs : List Doc) (st : MState) (gname : String)
      (G : Doc) (e : ManifestError),
      manifestInit docs none = .ok st →
      st.manifest.chartGroupsGetD = some [Sum.inl gname] →
      find_chart_group_document st.groups gname = .ok G →
      build_chart_group fuel st.charts G = some (.error e) →
      resolve fuel docs none =
        some (.error (.buildChartGroupException (groupErrMsg G))) ∧
      e = .buildChartGroupException (groupErrMsg G) ∧
      ∃ a b, groupErrMsg G = a ++ (G.pyName ++ b) := by
  intro fuel docs st gname G e hinit hm hfind hbuild
  have he := build_chart_group_error fuel st.charts G e hbuild
  refine ⟨?_, he, ?_⟩
  · simp only [resolve, hinit, build_armada_manifest, hm, manifestGroupsLoop,
      hfind, hbuild, he]
  · refine ⟨"Could not build " ++ TYPE_CHARTGROUP ++ " named \x22", "\x22", ?_⟩
    unfold groupErrMsg
    simp [String.append_assoc]

/-- C2 counterexample.  Group `G` lists the absent bundle `X`: resolution
fails with the group-level message, which mentions `G` but does not
mention `X` — the claim demands both names in the message. -/
theorem C2_counterexample :
    resolve 5 c2docs none =
      some (.error (.buildChartGroupException c2msg)) ∧
    strMentions c2msg "G" = true ∧ strMentions c2msg "X" = false :=
  ⟨rfl, rfl, rfl⟩

/-- C2 witness: the amended statement applied to the concrete document set
in which group `G` lists the missing bundle `X`. -/
theorem C2_missing_reference_witness :
    resolve 5 c2docs none =
      some (.error (.buildChartGroupException (groupErrMsg c2group))) ∧
    ManifestError.buildChartGroupException c2msg =
      .buildChartGroupException (groupErrMsg c2group) ∧
    ∃ a b, groupErrMsg c2group = a ++ (c2group.pyName ++ b) :=
  C2_missing_reference 5 c2docs ⟨[chartA], [c2group], c1manifest⟩ "G" c2group
    (.buildChartGroupException c2msg) rfl rfl rfl rfl

end Armada

namespace Armada

theorem manifestGroupsLoop_inr (fuel : Nat) :
    ∀ (entries : List Entry) (charts groups cs gs : List Doc)
      (es : List Entry),
      manifestGroupsLoop fuel charts groups entries =
        some (.ok (cs, gs, es)) →
      ∀ e ∈ es, ∃ d, e = Sum.inr d := by
  intro entries
  induction entries with
  | nil =>
    intro charts groups cs gs es h
    unfold manifestGroupsLoop at h
    injection h with h1
    injection h1 with h2
    injection h2 with _ h3
    injection h3 with _ h4
    rw [← h4]
    intro e he
    simp at he
  | cons hd tl ih =>
    intro charts groups cs gs es h
    rcases hd with name | d
    · unfold manifestGroupsLoop at h
      rcases hf : find_chart_group_document groups name with e2 | gdoc
      · simp only [hf] at h
        exact absurd h (by simp)
      · simp only [hf] at h
        rcases hb : build_chart_group fuel charts gdoc with _ | r
        · simp only [hb] at h
          exact absurd h (by simp)
        · rcases r with e2 | p
          · simp only [hb] at h
            exact absurd h (by simp)
          · rcases p with ⟨charts2, built⟩
            simp only [hb] at h
            rcases hl : manifestGroupsLoop fuel charts2
                (updateDoc groups name built) tl with _ | r2
            · simp only [hl] at h
              exact absurd h (by simp)
            · rcases r2 with e2 | ⟨cs2, gs2, es2⟩
              · simp only [hl] at h
                exact absurd h (by simp)
              · simp only [hl] at h
                injection h with h1
                injection h1 with h2
                injection h2 with _ h3
                injection h3 with _ h4
                rw [← h4]
                intro e he
                rcases List.mem_cons.mp he with h5 | h5
                · exact ⟨built, h5⟩
                · exact ih charts2 (updateDoc groups name built) cs2 gs2
                    es2 hl e h5
    · unfold manifestGroupsLoop at h
      rcases hl : manifestGroupsLoop fuel charts groups tl with _ | r2
      · simp only [hl] at h
        exact absurd h (by simp)
      · rcases r2 with e2 | ⟨cs2, gs2, es2⟩
        · simp only [hl] at h
          exact absurd h (by simp)
        · simp only [hl] at h
          injection h with h1
          injection h1 with h2
          injection h2 with _ h3
          injection h3 with _ h4
          rw [← h4]
          intro e he
          rcases List.mem_cons.mp he with h5 | h5
          · exact ⟨d, h5⟩
          · exact ih charts groups cs2 gs2 es2 hl e h5

theorem manifestGroupsLoop_skip (fuel : Nat) (charts groups : List Doc) :
    ∀ entries : List Entry, (∀ e ∈ entries, ∃ d, e = Sum.inr d) →
      manifestGroupsLoop fuel charts groups entries =
        some (.ok (charts, groups, entries)) := by
  intro entries
  induction entries with
  | nil => intro _; rfl
  | cons hd tl ih =>
    intro h
    rcases h hd (List.mem_cons_self hd tl) with ⟨d, hd2⟩
    subst hd2
    unfold manifestGroupsLoop
    rw [ih (fun e he => h e (List.mem_cons_of_mem _ he))]

theorem chartGroupsGetD_set (m : Doc) (es0 es : List Entry)
    (h : m.chartGroupsGetD = some es0) :
    (m.setChartGroups es).chartGroupsGetD = some es ∧
    (m.setChartGroups es).setChartGroups es = m.setChartGroups es := by
  rcases m with ⟨s, n, _ | ⟨d, c, g, p⟩⟩
  · exact absurd h (by simp [Doc.chartGroupsGetD, Doc.dataOf])
  · rcases g with _ | gl
    · exact absurd h (by
        simp [Doc.chartGroupsGetD, Doc.dataOf, DocData.chartGroupsOf])
    · exact ⟨rfl, rfl⟩

theorem build_armada_manifest_idem (fuel : Nat) (st st2 : MState)
    (h : build_armada_manifest fuel st = some (.ok st2)) :
    ∀ f2, build_armada_manifest f2 st2 = some (.ok st2) := by
  intro f2
  unfold build_armada_manifest at h
  rcases hg : st.manifest.chartGroupsGetD with _ | es
  · rw [hg] at h
    injection h with h1
    injection h1 with h2
    subst h2
    unfold build_armada_manifest
    rw [hg]
  · simp only [hg] at h
    rcases hl : manifestGroupsLoop fuel st.charts st.groups es with _ | r
    · simp only [hl] at h
      exact absurd h (by simp)
    · rcases r with e2 | ⟨cs, gs, es2⟩
      · simp only [hl] at h
        exact absurd h (by simp)
      · simp only [hl] at h
        injection h with h1
        injection h1 with h2
        subst h2
        have hset := chartGroupsGetD_set st.manifest es es2 hg
        have hinr := manifestGroupsLoop_inr fuel es st.charts st.groups
          cs gs es2 hl
        unfold build_armada_manifest
        simp only [hset.1, manifestGroupsLoop_skip f2 cs gs es2 hinr, hset.2]

/-- C10 (confirmed).  Resolution is idempotent: a successfully resolved
state has only inlined dicts in its manifest's `chart_groups`, so a second
`get_manifest` re-runs the build, skips every entry, and returns the very
same state and a manifest structurally equal to the first result. -/
theorem C10_resolution_idempotent :
    ∀ (fuel : Nat) (docs : List Doc) (t : Option String) (st : MState),
      resolve fuel docs t = some (.ok st) →
      ∀ f2, get_manifest f2 st = some (.ok (st, st.manifest)) := by
  intro fuel docs t st h f2
  unfold resolve at h
  rcases hi : manifestInit docs t with e | st0
  · rw [hi] at h
    exact absurd h (by simp)
  · rw [hi] at h
    have h2 := build_armada_manifest_idem fuel st0 st h f2
    unfold get_manifest
    rw [h2]

/-- C10 witness: the resolved state of the dependency-chain document set
is a fixed point of `get_manifest`. -/
theorem C10_resolution_idempotent_witness :
    get_manifest 3 stC10 = some (.ok (stC10, stC10.manifest)) :=
  C10_resolution_idempotent 5 c10docs none stC10 rfl 3

end Armada

namespace Armada

theorem cgFold_ok (gl : List Entry) (h : gl.all groupEntryWF = true) :
    ∃ gds, gl.foldr cgStep (.ok []) = .ok gds ∧ gds.all gdataWF = true := by
  induction gl with
  | nil => exact ⟨[], rfl, rfl⟩
  | cons e tl ih =>
    rw [List.all_cons, Bool.and_eq_true] at h
    rcases ih h.2 with ⟨gds, h1, h2⟩
    rcases e with s | g
    · exact absurd h.1 (by simp [groupEntryWF])
    · refine ⟨g.dataOf :: gds, ?_, ?_⟩
      · rw [List.foldr_cons, h1]
        rfl
      · rw [List.all_cons, Bool.and_eq_true]
        exact ⟨h.1, h2⟩

theorem cdFold_ok (gds : List (Option DocData))
    (h : gds.all gdataWF = true) :
    ∃ cs, gds.foldr cdStep (.ok []) = .ok cs ∧ cs.all entryIsDoc = true := by
  induction gds with
  | nil => exact ⟨[], rfl, rfl⟩
  | cons g tl ih =>
    rw [List.all_cons, Bool.and_eq_true] at h
    rcases ih h.2 with ⟨cs, h1, h2⟩
    rcases g with _ | gd
    · exact absurd h.1 (by simp [gdataWF])
    · rcases hc : gd.chartsOf with _ | cl
      · have h3 := h.1
        simp only [gdataWF, hc] at h3
        exact absurd h3 (by simp)
      · have h3 := h.1
        simp only [gdataWF, hc] at h3
        refine ⟨cl ++ cs, ?_, ?_⟩
        · rw [List.foldr_cons, h1]
          simp only [cdStep, hc]
        · rw [List.all_append, Bool.and_eq_true]
          exact ⟨h3, h2⟩

theorem cFold_ok (cs : List Entry) (h : cs.all entryIsDoc = true) :
    ∃ r, cs.foldr cStep (.ok []) = .ok r := by
  induction cs with
  | nil => exact ⟨[], rfl⟩
  | cons c tl ih =>
    rw [List.all_cons, Bool.and_eq_true] at h
    rcases ih h.2 with ⟨r, h1⟩
    rcases c with s | d
    · exact absurd h.1 (by simp [entryIsDoc])
    · exact ⟨d.dataOf :: r, by rw [List.foldr_cons, h1]; rfl⟩

/-- C8 (amended).  The accessors are pure reads of the stored manifest —
they never invoke the build — and, on a resolved manifest every entry of
whose `chart_groups` is an inlined document carrying a `data` section with
a present `charts` list of inlined documents, all five accessors return
without raising.  (Without that well-formedness a successfully resolved
manifest can still make an accessor raise; see the counterexample.) -/
theorem C8_accessor_totality :
    ∀ (fuel : Nat) (docs : List Doc) (t : Option String) (st : MState),
      resolve fuel docs t = some (.ok st) →
      accessorsWF st.manifest = true →
      exceptOk (get_chart_group_documents st.manifest) = true ∧
      exceptOk (get_chart_groups st.manifest) = true ∧
      exceptOk (get_chart_documents st.manifest) = true ∧
      exceptOk (get_charts st.manifest) = true ∧
      exceptOk (get_release_pfx st.manifest) = true := by
  intro fuel docs t st _ hwf
  rcases hd : st.manifest.dataOf with _ | dd
  · simp only [accessorsWF, hd] at hwf
    exact absurd hwf (by simp)
  · rcases hg : dd.chartGroupsOf with _ | gl
    · simp only [accessorsWF, hd, hg] at hwf
      exact absurd hwf (by simp)
    · simp only [accessorsWF, hd, hg] at hwf
      have hcgd : get_chart_group_documents st.manifest = .ok (some gl) := by
        simp only [get_chart_group_documents, hd, hg]
      rcases cgFold_ok gl hwf with ⟨gds, h1, h2⟩
      have hcg : get_chart_groups st.manifest = .ok gds := by
        simp only [get_chart_groups, hcgd, h1]
      rcases cdFold_ok gds h2 with ⟨cs, h3, h4⟩
      have hcd : get_chart_documents st.manifest = .ok cs := by
        simp only [get_chart_documents, hcg, h3]
      rcases cFold_ok cs h4 with ⟨r, h5⟩
      have hc : get_charts st.manifest = .ok r := by
        simp only [get_charts, hcd, h5]
      have hp : get_release_pfx st.manifest = .ok dd.releasePfx := by
        simp only [get_release_pfx, hd]
      rw [hcgd, hcg, hcd, hc, hp]
      exact ⟨rfl, rfl, rfl, rfl, rfl⟩

/-- C8 witness: the resolved dependency-chain manifest is well-formed and
every accessor returns normally on it. -/
theorem C8_accessor_totality_witness :
    accessorsWF stC10.manifest = true ∧
    exceptOk (get_chart_group_documents stC10.manifest) = true ∧
    exceptOk (get_chart_groups stC10.manifest) = true ∧
    exceptOk (get_chart_documents stC10.manifest) = true ∧
    exceptOk (get_charts stC10.manifest) = true ∧
    exceptOk (get_release_pfx stC10.manifest) = true :=
  ⟨rfl, C8_accessor_totality 5 c10docs none stC10 rfl rfl⟩

/-- C8 counterexample.  A document set that resolves successfully although
its manifest pre-inlines a bare dict where a group is expected: the claim
says every accessor then returns without raising, but `get_chart_documents`
raises `AttributeError` (`None.get` on the bare dict's missing `data`). -/
theorem C8_counterexample :
    resolvedChartDocs (resolve 5 c8docs none) =
      some (.error .attributeError) := rfl

end Armada

namespace Armada

theorem depsClosedB_mem :
    ∀ es : List Entry, depsClosedB es = true →
      ∀ e ∈ es, ∃ d, e = Sum.inr d ∧ chartClosedB d = true := by
  intro es
  induction es with
  | nil =>
    intro _ e he
    simp at he
  | cons hd tl ih =>
    intro h e he
    rcases hd with s | d
    · simp [depsClosedB] at h
    · simp only [depsClosedB, Bool.and_eq_true] at h
      rcases List.mem_cons.mp he with h2 | h2
      · exact ⟨d, h2, h.1⟩
      · exact ih h.2 e h2

theorem depsClosedB_of_mem :
    ∀ es : List Entry,
      (∀ e ∈ es, ∃ d, e = Sum.inr d ∧ chartClosedB d = true) →
      depsClosedB es = true := by
  intro es
  induction es with
  | nil => intro _; rfl
  | cons hd tl ih =>
    intro h
    rcases h hd (List.mem_cons_self hd tl) with ⟨d, hd2, hc⟩
    subst hd2
    simp only [depsClosedB, Bool.and_eq_true]
    exact ⟨hc, ih (fun e he => h e (List.mem_cons_of_mem _ he))⟩

theorem chartClosedB_good (c : Doc) (h : chartClosedB c = true) :
    chartGoodB c = true := by
  rcases c with ⟨s, n, _ | ⟨_ | es, ch, g, p⟩⟩
  · rfl
  · rfl
  · simp only [chartClosedB] at h
    unfold chartGoodB Doc.depsGetD Doc.dataOf DocData.deps
    rw [List.all_eq_true]
    intro e he
    rcases depsClosedB_mem es h e (by simpa using he) with ⟨d, hd, hc⟩
    subst hd
    simpa [entryGoodB] using hc

theorem setDeps_closed (c : Doc) (es : List Entry)
    (h : depsClosedB es = true) : chartClosedB (c.setDeps es) = true := by
  rcases c with ⟨s, n, _ | ⟨_ | es0, ch, g, p⟩⟩
  · rfl
  · rfl
  · simpa [Doc.setDeps, chartClosedB] using h

theorem updateDoc_pres (P : Doc → Prop) :
    ∀ (store : List Doc) (n : String) (d : Doc),
      (∀ c ∈ store, P c) → P d → ∀ c ∈ updateDoc store n d, P c := by
  intro store
  induction store with
  | nil =>
    intro n d _ _ c hc
    simp [updateDoc] at hc
  | cons hd tl ih =>
    intro n d hs hd2 c hc
    unfold updateDoc at hc
    by_cases he : (hd.nameOf == some n) = true
    · rw [if_pos he] at hc
      rcases List.mem_cons.mp hc with h2 | h2
      · exact h2 ▸ hd2
      · exact hs c (List.mem_cons_of_mem _ h2)
    · rw [if_neg he] at hc
      rcases List.mem_cons.mp hc with h2 | h2
      · exact h2 ▸ hs hd (List.mem_cons_self hd tl)
      · exact ih n d (fun c2 hc2 => hs c2 (List.mem_cons_of_mem _ hc2))
          hd2 c h2

theorem find_chart_document_mem (store : List Doc) (name : String)
    (c : Doc) (h : find_chart_document store name = .ok c) : c ∈ store := by
  unfold find_chart_document at h
  rcases hf : store.find? (fun c2 => c2.nameOf == some name) with _ | c2
  · rw [hf] at h
    exact absurd h (by simp)
  · rw [hf] at h
    injection h with h2
    exact h2 ▸ List.mem_of_find?_eq_some hf

theorem find_chart_group_document_mem (groups : List Doc) (name : String)
    (g : Doc) (h : find_chart_group_document groups name = .ok g) :
    g ∈ groups := by
  unfold find_chart_group_document at h
  rcases hf : groups.find? (fun g2 => g2.nameOf == some name) with _ | g2
  · rw [hf] at h
    exact absurd h (by simp)
  · rw [hf] at h
    injection h with h2
    exact h2 ▸ List.mem_of_find?_eq_some hf

theorem allStrB_entryGood (l : List Entry) (h : allStrB l = true) :
    l.all entryGoodB = true := by
  rw [List.all_eq_true]
  intro e he
  unfold allStrB at h
  rw [List.all_eq_true] at h
  have h2 := h e he
  rcases e with s | d
  · rfl
  · simp at h2

theorem allStrB_groupEntryGood (l : List Entry) (h : allStrB l = true) :
    l.all groupEntryGoodB = true := by
  rw [List.all_eq_true]
  intro e he
  unfold allStrB at h
  rw [List.all_eq_true] at h
  have h2 := h e he
  rcases e with s | d
  · rfl
  · simp at h2

theorem allStrB_manifestEntryGood (l : List Entry) (h : allStrB l = true) :
    l.all manifestEntryGoodB = true := by
  rw [List.all_eq_true]
  intro e he
  unfold allStrB at h
  rw [List.all_eq_true] at h
  have h2 := h e he
  rcases e with s | d
  · rfl
  · simp at h2

end Armada

namespace Armada

theorem buildDeps_good :
    ∀ f : Nat,
      (∀ (store : List Doc) (chart : Doc) (store2 : List Doc) (c2 : Doc),
        (∀ c ∈ store, chartGoodB c = true) → chartGoodB chart = true →
        build_chart_deps f store chart = some (.ok (store2, c2)) →
        (∀ c ∈ store2, chartGoodB c = true) ∧ chartClosedB c2 = true) ∧
      (∀ (store : List Doc) (entries : List Entry) (store2 : List Doc)
          (es : List Entry),
        (∀ c ∈ store, chartGoodB c = true) → entries.all entryGoodB = true →
        depsLoop f store entries = some (.ok (store2, es)) →
        (∀ c ∈ store2, chartGoodB c = true) ∧ depsClosedB es = true) := by
  intro f
  induction f with
  | zero =>
    constructor
    · intro store chart store2 c2 _ _ h
      exact absurd h (by simp [build_chart_deps])
    · intro store entries store2 es _ _ h
      exact absurd h (by simp [depsLoop])
  | succ f ih =>
    constructor
    · intro store chart store2 c2 hs hg h
      simp only [build_chart_deps] at h
      rcases hl : depsLoop f store chart.depsGetD with _ | r
      · simp only [hl] at h
        exact absurd h (by simp)
      · rcases r with e | ⟨store2b, es⟩
        · simp only [hl] at h
          exact absurd h (by simp)
        · simp only [hl, Option.some.injEq, Except.ok.injEq,
            Prod.mk.injEq] at h
          obtain ⟨h1, h2⟩ := h
          rw [← h1, ← h2]
          have h3 := ih.2 store chart.depsGetD store2b es hs
            (by simpa [chartGoodB] using hg) hl
          exact ⟨h3.1, setDeps_closed chart es h3.2⟩
    · intro store entries store2 es hs ha h
      rcases entries with _ | ⟨hd, tl⟩
      · simp only [depsLoop, Option.some.injEq, Except.ok.injEq,
          Prod.mk.injEq] at h
        obtain ⟨h1, h2⟩ := h
        rw [← h1, ← h2]
        exact ⟨hs, rfl⟩
      · rw [List.all_cons, Bool.and_eq_true] at ha
        rcases hd with name | d
        · simp only [depsLoop] at h
          rcases hf : find_chart_document store name with e | depDoc
          · simp only [hf] at h
            exact absurd h (by simp)
          · simp only [hf] at h
            rcases hb : build_chart_deps f store depDoc with _ | r
            · simp only [hb] at h
              exact absurd h (by simp)
            · rcases r with e | ⟨store2b, built⟩
              · simp only [hb] at h
                exact absurd h (by simp)
              · simp only [hb] at h
                rcases hl : depsLoop f (updateDoc store2b name built) tl
                    with _ | r2
                · simp only [hl] at h
                  exact absurd h (by simp)
                · rcases r2 with e | ⟨store3, es2⟩
                  · simp only [hl] at h
                    exact absurd h (by simp)
                  · simp only [hl, Option.some.injEq, Except.ok.injEq,
                      Prod.mk.injEq] at h
                    obtain ⟨h1, h2⟩ := h
                    rw [← h1, ← h2]
                    have hdep : chartGoodB depDoc = true :=
                      hs depDoc (find_chart_document_mem store name depDoc hf)
                    have hb2 := ih.1 store depDoc store2b built hs hdep hb
                    have hup : ∀ c ∈ updateDoc store2b name built,
                        chartGoodB c = true :=
                      updateDoc_pres (fun c => chartGoodB c = true) store2b
                        name built hb2.1 (chartClosedB_good built hb2.2)
                    have hl2 := ih.2 (updateDoc store2b name built) tl
                      store3 es2 hup ha.2 hl
                    refine ⟨hl2.1, ?_⟩
                    simp only [depsClosedB, Bool.and_eq_true]
                    exact ⟨hb2.2, hl2.2⟩
        · simp only [depsLoop] at h
          rcases hl : depsLoop f store tl with _ | r2
          · simp only [hl] at h
            exact absurd h (by simp)
          · rcases r2 with e | ⟨store3, es2⟩
            · simp only [hl] at h
              exact absurd h (by simp)
            · simp only [hl, Option.some.injEq, Except.ok.injEq,
                Prod.mk.injEq] at h
              obtain ⟨h1, h2⟩ := h
              rw [← h1, ← h2]
              have hl2 := ih.2 store tl store3 es2 hs ha.2 hl
              refine ⟨hl2.1, ?_⟩
              simp only [depsClosedB, Bool.and_eq_true]
              refine ⟨?_, hl2.2⟩
              simpa [entryGoodB] using ha.1

end Armada

namespace Armada

theorem setCharts_closed (g : Doc) (es : List Entry)
    (h : ∀ e ∈ es, ∃ c, e = Sum.inr c ∧ chartClosedB c = true) :
    groupClosedB (g.setCharts es) = true := by
  rcases g with ⟨s, n, _ | ⟨d, _ | cl, gg, p⟩⟩
  · rfl
  · rfl
  · simp only [Doc.setCharts, groupClosedB, Doc.chartsGetD, Doc.dataOf,
      DocData.chartsOf, Option.getD_some]
    rw [List.all_eq_true]
    intro e he
    rcases h e he with ⟨c, he2, hc⟩
    subst he2
    simpa using hc

theorem groupClosedB_good (g : Doc) (h : groupClosedB g = true) :
    groupGoodB g = true := by
  unfold groupClosedB at h
  unfold groupGoodB
  rw [List.all_eq_true] at h ⊢
  intro e he
  have h2 := h e he
  rcases e with s | c
  · simp at h2
  · simpa [groupEntryGoodB] using h2

theorem groupChartsLoop_good :
    ∀ (entries : List Entry) (fuel : Nat) (store store2 : List Doc)
      (es : List Entry),
      (∀ c ∈ store, chartGoodB c = true) →
      entries.all groupEntryGoodB = true →
      groupChartsLoop fuel store entries = some (.ok (store2, es)) →
      (∀ c ∈ store2, chartGoodB c = true) ∧
      (∀ e ∈ es, ∃ c, e = Sum.inr c ∧ chartClosedB c = true) := by
  intro entries
  induction entries with
  | nil =>
    intro fuel store store2 es hs _ h
    simp only [groupChartsLoop, Option.some.injEq, Except.ok.injEq,
      Prod.mk.injEq] at h
    obtain ⟨h1, h2⟩ := h
    rw [← h1, ← h2]
    exact ⟨hs, by simp⟩
  | cons hd tl ih =>
    intro fuel store store2 es hs ha h
    rw [List.all_cons, Bool.and_eq_true] at ha
    rcases hd with name | d
    · simp only [groupChartsLoop] at h
      rcases hf : find_chart_document store name with e | cdoc
      · simp only [hf] at h
        exact absurd h (by simp)
      · simp only [hf] at h
        rcases hb : build_chart_deps fuel store cdoc with _ | r
        · simp only [hb] at h
          exact absurd h (by simp)
        · rcases r with e | ⟨store2b, built⟩
          · simp only [hb] at h
            exact absurd h (by simp)
          · simp only [hb] at h
            rcases hl : groupChartsLoop fuel (updateDoc store2b name built)
                tl with _ | r2
            · simp only [hl] at h
              exact absurd h (by simp)
            · rcases r2 with e | ⟨store3, es2⟩
              · simp only [hl] at h
                exact absurd h (by simp)
              · simp only [hl, Option.some.injEq, Except.ok.injEq,
                  Prod.mk.injEq] at h
                obtain ⟨h1, h2⟩ := h
                rw [← h1, ← h2]
                have hdep : chartGoodB cdoc = true :=
                  hs cdoc (find_chart_document_mem store name cdoc hf)
                have hb2 := (buildDeps_good fuel).1 store cdoc store2b built
                  hs hdep hb
                have hup : ∀ c ∈ updateDoc store2b name built,
                    chartGoodB c = true :=
                  updateDoc_pres (fun c => chartGoodB c = true) store2b name
                    built hb2.1 (chartClosedB_good built hb2.2)
                have hl2 := ih fuel (updateDoc store2b name built) store3
                  es2 hup ha.2 hl
                refine ⟨hl2.1, ?_⟩
                intro e he
                rcases List.mem_cons.mp he with h3 | h3
                · exact ⟨built, h3, hb2.2⟩
                · exact hl2.2 e h3
    · simp only [groupChartsLoop] at h
      rcases hl : groupChartsLoop fuel store tl with _ | r2
      · simp only [hl] at h
        exact absurd h (by simp)
      · rcases r2 with e | ⟨store3, es2⟩
        · simp only [hl] at h
          exact absurd h (by simp)
        · simp only [hl, Option.some.injEq, Except.ok.injEq,
            Prod.mk.injEq] at h
          obtain ⟨h1, h2⟩ := h
          rw [← h1, ← h2]
          have hl2 := ih fuel store store3 es2 hs ha.2 hl
          refine ⟨hl2.1, ?_⟩
          intro e he
          rcases List.mem_cons.mp he with h3 | h3
          · exact ⟨d, h3, by simpa [groupEntryGoodB] using ha.1⟩
          · exact hl2.2 e h3

theorem build_chart_group_good (fuel : Nat) (store : List Doc) (g : Doc)
    (store2 : List Doc) (g2 : Doc)
    (hs : ∀ c ∈ store, chartGoodB c = true) (hg : groupGoodB g = true)
    (h : build_chart_group fuel store g = some (.ok (store2, g2))) :
    (∀ c ∈ store2, chartGoodB c = true) ∧ groupClosedB g2 = true := by
  unfold build_chart_group at h
  rcases hl : groupChartsLoop fuel store g.chartsGetD with _ | r
  · simp only [hl] at h
    exact absurd h (by simp)
  · rcases r with e | ⟨store2b, es⟩
    · simp only [hl] at h
      exact absurd h (by simp)
    · simp only [hl, Option.some.injEq, Except.ok.injEq, Prod.mk.injEq] at h
      obtain ⟨h1, h2⟩ := h
      rw [← h1, ← h2]
      have hl2 := groupChartsLoop_good g.chartsGetD fuel store store2b es hs
        (by simpa [groupGoodB] using hg) hl
      exact ⟨hl2.1, setCharts_closed g es hl2.2⟩

theorem manifestGroupsLoop_good :
    ∀ (entries : List Entry) (fuel : Nat) (charts groups cs gs : List Doc)
      (es : List Entry),
      (∀ c ∈ charts, chartGoodB c = true) →
      (∀ g ∈ groups, groupGoodB g = true) →
      entries.all manifestEntryGoodB = true →
      manifestGroupsLoop fuel charts groups entries =
        some (.ok (cs, gs, es)) →
      ∀ e ∈ es, ∃ g2, e = Sum.inr g2 ∧ groupClosedB g2 = true := by
  intro entries
  induction entries with
  | nil =>
    intro fuel charts groups cs gs es _ _ _ h
    simp only [manifestGroupsLoop, Option.some.injEq, Except.ok.injEq,
      Prod.mk.injEq] at h
    obtain ⟨_, _, h3⟩ := h
    rw [← h3]
    simp
  | cons hd tl ih =>
    intro fuel charts groups cs gs es hc hg ha h
    rw [List.all_cons, Bool.and_eq_true] at ha
    rcases hd with name | d
    · simp only [manifestGroupsLoop] at h
      rcases hf : find_chart_group_document groups name with e | gdoc
      · simp only [hf] at h
        exact absurd h (by simp)
      · simp only [hf] at h
        rcases hb : build_chart_group fuel charts gdoc with _ | r
        · simp only [hb] at h
          exact absurd h (by simp)
        · rcases r with e | ⟨charts2, built⟩
          · simp only [hb] at h
            exact absurd h (by simp)
          · simp only [hb] at h
            rcases hl : manifestGroupsLoop fuel charts2
                (updateDoc groups name built) tl with _ | r2
            · simp only [hl] at h
              exact absurd h (by simp)
            · rcases r2 with e | ⟨cs2, gs2, es2⟩
              · simp only [hl] at h
                exact absurd h (by simp)
              · simp only [hl, Option.some.injEq, Except.ok.injEq,
                  Prod.mk.injEq] at h
                obtain ⟨_, _, h3⟩ := h
                rw [← h3]
                have hgd : groupGoodB gdoc = true :=
                  hg gdoc (find_chart_group_document_mem groups name gdoc hf)
                have hb2 := build_chart_group_good fuel charts gdoc charts2
                  built hc hgd hb
                have hup : ∀ g ∈ updateDoc groups name built,
                    groupGoodB g = true :=
                  updateDoc_pres (fun g => groupGoodB g = true) groups name
                    built hg (groupClosedB_good built hb2.2)
                have hl2 := ih fuel charts2 (updateDoc groups name built)
                  cs2 gs2 es2 hb2.1 hup ha.2 hl
                intro e he
                rcases List.mem_cons.mp he with h4 | h4
                · exact ⟨built, h4, hb2.2⟩
                · exact hl2 e h4
    · simp only [manifestGroupsLoop] at h
      rcases hl : manifestGroupsLoop fuel charts groups tl with _ | r2
      · simp only [hl] at h
        exact absurd h (by simp)
      · rcases r2 with e | ⟨cs2, gs2, es2⟩
        · simp only [hl] at h
          exact absurd h (by simp)
        · simp only [hl, Option.some.injEq, Except.ok.injEq,
            Prod.mk.injEq] at h
          obtain ⟨_, _, h3⟩ := h
          rw [← h3]
          have hl2 := ih fuel charts groups cs2 gs2 es2 hc hg ha.2 hl
          intro e he
          rcases List.mem_cons.mp he with h4 | h4
          · exact ⟨d, h4, by simpa [manifestEntryGoodB] using ha.1⟩
          · exact hl2 e h4

end Armada

namespace Armada

theorem find_documents_sub (docs : List Doc) (t : Option String) :
    (∀ c ∈ (find_documents docs t).1, c ∈ docs) ∧
    (∀ g ∈ (find_documents docs t).2.1, g ∈ docs) ∧
    (∀ m ∈ (find_documents docs t).2.2, m ∈ docs) := by
  induction docs with
  | nil => exact ⟨by simp [find_documents], by simp [find_documents],
      by simp [find_documents]⟩
  | cons d rest ih =>
    simp only [find_documents]
    rcases h : get_schema_info d.schemaOf with _ | ty
    · exact ⟨fun c hc => List.mem_cons_of_mem _ (ih.1 c hc),
        fun g hg => List.mem_cons_of_mem _ (ih.2.1 g hg),
        fun m hm => List.mem_cons_of_mem _ (ih.2.2 m hm)⟩
    · cases ty
      · refine ⟨?_, fun g hg => List.mem_cons_of_mem _ (ih.2.1 g hg),
          fun m hm => List.mem_cons_of_mem _ (ih.2.2 m hm)⟩
        intro c hc
        rcases List.mem_cons.mp hc with h2 | h2
        · exact h2 ▸ List.mem_cons_self d rest
        · exact List.mem_cons_of_mem _ (ih.1 c h2)
      · refine ⟨fun c hc => List.mem_cons_of_mem _ (ih.1 c hc), ?_,
          fun m hm => List.mem_cons_of_mem _ (ih.2.2 m hm)⟩
        intro g hg
        rcases List.mem_cons.mp hg with h2 | h2
        · exact h2 ▸ List.mem_cons_self d rest
        · exact List.mem_cons_of_mem _ (ih.2.1 g h2)
      · by_cases ht : targetTruthy t
        · by_cases hn : (d.nameOf == t) = true
          · simp only [ht, hn, if_true]
            refine ⟨fun c hc => List.mem_cons_of_mem _ (ih.1 c hc),
              fun g hg => List.mem_cons_of_mem _ (ih.2.1 g hg), ?_⟩
            intro m hm
            rcases List.mem_cons.mp hm with h2 | h2
            · exact h2 ▸ List.mem_cons_self d rest
            · exact List.mem_cons_of_mem _ (ih.2.2 m h2)
          · simp only [ht, hn, if_true, if_false]
            exact ⟨fun c hc => List.mem_cons_of_mem _ (ih.1 c hc),
              fun g hg => List.mem_cons_of_mem _ (ih.2.1 g hg),
              fun m hm => List.mem_cons_of_mem _ (ih.2.2 m hm)⟩
        · simp only [ht, if_false]
          refine ⟨fun c hc => List.mem_cons_of_mem _ (ih.1 c hc),
            fun g hg => List.mem_cons_of_mem _ (ih.2.1 g hg), ?_⟩
          intro m hm
          rcases List.mem_cons.mp hm with h2 | h2
          · exact h2 ▸ List.mem_cons_self d rest
          · exact List.mem_cons_of_mem _ (ih.2.2 m h2)

theorem manifestInit_ok (docs : List Doc) (t : Option String) (st : MState)
    (h : manifestInit docs t = .ok st) :
    st.charts = (find_documents docs t).1 ∧
    st.groups = (find_documents docs t).2.1 ∧
    st.manifest ∈ (find_documents docs t).2.2 := by
  rcases hr : find_documents docs t with ⟨cs, gs2, ms⟩
  simp only [manifestInit, hr] at h
  split at h
  · exact absurd h (by simp)
  · split at h
    · rename_i c cs3 g gs3 m
      injection h with h2
      rw [← h2]
      simp
    · exact absurd h (by simp)

theorem setChartGroups_closed (m : Doc) (es : List Entry)
    (h : ∀ e ∈ es, ∃ g, e = Sum.inr g ∧ groupClosedB g = true) :
    manifestClosedB (m.setChartGroups es) = true := by
  rcases m with ⟨s, n, _ | ⟨d, c, _ | gl, p⟩⟩
  · rfl
  · rfl
  · simp only [Doc.setChartGroups, manifestClosedB, Doc.chartGroupsGetD,
      Doc.dataOf, DocData.chartGroupsOf, Option.getD_some]
    rw [List.all_eq_true]
    intro e he
    rcases h e he with ⟨g, he2, hg⟩
    subst he2
    simpa using hg

/-- C1 (amended).  For document sets in which every entry of every
document's `dependencies`, `charts` and `chart_groups` list is a name
string (no pre-inlined objects), successful resolution yields a closed
manifest: every element of `chart_groups`, of each group's `charts` and of
each reachable bundle's `dependencies` is an inlined document object.  The
algorithm leaves already-inlined entries untouched without recursing into
them, so with pre-inlined objects in the input the closure can fail (see
the counterexample). -/
theorem C1_resolution_closure :
    ∀ (fuel : Nat) (docs : List Doc) (t : Option String) (st st2 : MState),
      (∀ d ∈ docs, allStrDocB d = true) →
      manifestInit docs t = .ok st →
      build_armada_manifest fuel st = some (.ok st2) →
      manifestClosedB st2.manifest = true := by
  intro fuel docs t st st2 hall hinit h
  have hc0 := manifestInit_ok docs t st hinit
  have hsub := find_documents_sub docs t
  have hcharts : ∀ c ∈ st.charts, chartGoodB c = true := by
    intro c hc
    have hm : c ∈ docs := hsub.1 c (hc0.1 ▸ hc)
    have h2 := hall c hm
    unfold allStrDocB at h2
    simp only [Bool.and_eq_true] at h2
    exact allStrB_entryGood c.depsGetD h2.1.1
  have hgroups : ∀ g ∈ st.groups, groupGoodB g = true := by
    intro g hg
    have hm : g ∈ docs := hsub.2.1 g (hc0.2.1 ▸ hg)
    have h2 := hall g hm
    unfold allStrDocB at h2
    simp only [Bool.and_eq_true] at h2
    exact allStrB_groupEntryGood g.chartsGetD h2.1.2
  have hman := hall st.manifest (hsub.2.2 st.manifest hc0.2.2)
  unfold allStrDocB at hman
  simp only [Bool.and_eq_true] at hman
  unfold build_armada_manifest at h
  rcases hg : st.manifest.chartGroupsGetD with _ | es
  · simp only [hg, Option.some.injEq, Except.ok.injEq] at h
    rw [← h]
    unfold manifestClosedB
    rw [hg]
    rfl
  · simp only [hg] at h
    rcases hl : manifestGroupsLoop fuel st.charts st.groups es with _ | r
    · simp only [hl] at h
      exact absurd h (by simp)
    · rcases r with e | ⟨cs, gs, es2⟩
      · simp only [hl] at h
        exact absurd h (by simp)
      · simp only [hl, Option.some.injEq, Except.ok.injEq] at h
        rw [← h]
        have ha : es.all manifestEntryGoodB = true := by
          have h3 := hman.2
          rw [hg] at h3
          exact allStrB_manifestEntryGood es (by simpa using h3)
        have hl2 := manifestGroupsLoop_good es fuel st.charts st.groups cs
          gs es2 hcharts hgroups ha hl
        exact setChartGroups_closed st.manifest es2 hl2

/-- C1 counterexample.  A group pre-inlines a chart object whose own
`dependencies` list still holds the name string `A`; resolution succeeds
but the resolved manifest is not closed — the claim asserts closure holds
even for pre-inlined entries with nested name strings. -/
theorem C1_counterexample :
    resolvedClosed (resolve 5 c1docs none) = some false := rfl

/-- C1 witness: the all-string dependency-chain document set resolves to a
closed manifest. -/
theorem C1_resolution_closure_witness :
    manifestClosedB stC10.manifest = true :=
  C1_resolution_closure 5 c10docs none
    ⟨[chartB, chartD], [c10group], c1manifest⟩ stC10 (by decide) rfl rfl

end Armada
